import Mathlib

/-!
Verification of the invoice extraction and classification core
(`InvoiceExtractor.py`).

Text is modelled as `List Char` (ASCII character classes; the source's
regular expressions are embedded as explicit matchers with Python's
leftmost-search and greedy-with-backtracking semantics specialised to the
concrete patterns of `extract_invoice_data`).  MongoDB collections are
modelled as lists of records searched in insertion order, and
`insert_one` as appending; `find_one` with an equality document is
modelled by `List.find?` over an explicit `Query` of optional field
constraints.
-/

namespace InvoiceExtractor

/-! ## Character classes (ASCII model of the regex classes used) -/

/-- Class `[A-Z]` under `re.IGNORECASE`: an ASCII letter. -/
def isLetterCI (c : Char) : Bool := c.isAlpha

/-- Class `\s` (ASCII part): the whitespace characters Python's `re` accepts. -/
def isSpacePy (c : Char) : Bool :=
  c == ' ' || c == '\t' || c == '\n' || c == '\r' || c == '\x0b' || c == '\x0c'

/-- Class `[\d,]` from the amount pattern: a digit or a comma. -/
def isAmtChar (c : Char) : Bool := c.isDigit || c == ','

/-- Class `[:\s]` from the due-date pattern. -/
def isColonSpace (c : Char) : Bool := c == ':' || isSpacePy c

/-- Class `\w` (ASCII part), used for the `\b` word boundaries of `\bPaid\b`. -/
def isWordChar (c : Char) : Bool := c.isAlpha || c.isDigit || c == '_'

/-! ## Generic pieces of the regex embedding -/

/-- Match exactly `n` characters satisfying `p`; return them and the rest. -/
def takeExact (p : Char → Bool) : Nat → List Char → Option (List Char × List Char)
  | 0, l => some ([], l)
  | _ + 1, [] => none
  | n + 1, c :: l =>
    if p c then (takeExact p n l).map (fun x => (c :: x.1, x.2)) else none

/-- Leftmost search: try the matcher at every start position, first hit wins
(the embedding of `re.search`, which also tries the empty final position). -/
def scanFirst (f : List Char → Option (List Char)) : List Char → Option (List Char)
  | [] => f []
  | c :: r =>
    match f (c :: r) with
    | some m => some m
    | none => scanFirst f r

/-! ## `([A-Z]{3,5}\d{6,8})`, case-insensitive (invoice number) -/

/-- Greedy `\d{6,8}`: try 8, then 7, then 6 digits. -/
def invDigits (r : List Char) : Option (List Char) :=
  match takeExact Char.isDigit 8 r with
  | some x => some x.1
  | none =>
    match takeExact Char.isDigit 7 r with
    | some x => some x.1
    | none =>
      match takeExact Char.isDigit 6 r with
      | some x => some x.1
      | none => none

/-- `[A-Z]{k}` (case-insensitive) then `\d{6,8}` at the head of `l`. -/
def invAtK (k : Nat) (l : List Char) : Option (List Char) :=
  match takeExact isLetterCI k l with
  | none => none
  | some x =>
    match invDigits x.2 with
    | none => none
    | some ds => some (x.1 ++ ds)

/-- Greedy `[A-Z]{3,5}` with backtracking: try 5 letters, then 4, then 3. -/
def matchInvAt (l : List Char) : Option (List Char) :=
  match invAtK 5 l with
  | some m => some m
  | none =>
    match invAtK 4 l with
    | some m => some m
    | none => invAtK 3 l

/-! ## `€\s?([\d,]+\.\d{2})` (amount; group 1 is returned) -/

/-- `[\d,]+\.\d{2}` at the head of `l`.  The greedy `[\d,]+` must end exactly
at the first character outside the class, so the maximal run is the only
backtracking candidate that can be followed by the literal dot. -/
def numPart (l : List Char) : Option (List Char) :=
  let run := l.takeWhile isAmtChar
  match run, l.drop run.length with
  | [], _ => none
  | _ :: _, '.' :: d1 :: d2 :: _ =>
    if d1.isDigit && d2.isDigit then some (run ++ ['.', d1, d2]) else none
  | _ :: _, _ => none

/-- `\s?([\d,]+\.\d{2})` after the euro sign: greedily consume one optional
whitespace character, backtracking to zero if the rest fails. -/
def amtAfterEuro (r : List Char) : Option (List Char) :=
  match r with
  | [] => none
  | c :: r2 =>
    if isSpacePy c then
      match numPart r2 with
      | some m => some m
      | none => numPart (c :: r2)
    else numPart (c :: r2)

/-- The whole amount pattern at the head of `l`: a literal euro sign, then
`amtAfterEuro`. -/
def matchAmtAt (l : List Char) : Option (List Char) :=
  match l with
  | '€' :: r => amtAfterEuro r
  | _ => none

/-! ## `Due Date[:\s]*(\d{2}/\d{2}/\d{4})`, case-insensitive (due date) -/

/-- Case-insensitive literal match (the pattern is given in lowercase);
returns the rest of the text after the literal. -/
def matchLitCI : List Char → List Char → Option (List Char)
  | [], l => some l
  | _ :: _, [] => none
  | p :: ps, c :: cs => if c.toLower == p then matchLitCI ps cs else none

/-- The due-date pattern at the head of `l`; group 1 (the date) is returned.
`[:\s]*` is greedy and its class is disjoint from `\d`, so the maximal run
is the only viable backtracking candidate. -/
def matchDueAt (l : List Char) : Option (List Char) :=
  match matchLitCI ("due date").data l with
  | none => none
  | some r =>
    match r.drop ((r.takeWhile isColonSpace).length) with
    | a :: b :: '/' :: e :: f :: '/' :: g :: h :: i :: j :: _ =>
      if a.isDigit && b.isDigit && e.isDigit && f.isDigit &&
          g.isDigit && h.isDigit && i.isDigit && j.isDigit then
        some [a, b, '/', e, f, '/', g, h, i, j]
      else none
    | _ => none

/-! ## `\bPaid\b`, case-insensitive (payment status, existence only) -/

/-- The word boundary after `Paid`: end of text or a non-word character. -/
def paidAfterOk : List Char → Bool
  | [] => true
  | c :: _ => !isWordChar c

/-- The literal `Paid` (case-insensitive) with its trailing boundary, at the
head of `l`. -/
def matchPaidAt : List Char → Bool
  | p :: a :: i :: d :: rest =>
    p.toLower == 'p' && a.toLower == 'a' && i.toLower == 'i' && d.toLower == 'd' &&
      paidAfterOk rest
  | _ => false

/-- The word boundary before position `i` of `t`: start of text or a
non-word character at position `i - 1`. -/
def boundaryBeforeAt (t : List Char) : Nat → Bool
  | 0 => true
  | j + 1 =>
    match t[j]? with
    | some c => !isWordChar c
    | none => true

/-- A standalone (word-boundary delimited) `Paid` starts at position `i`. -/
def paidStandaloneAt (t : List Char) (i : Nat) : Bool :=
  matchPaidAt (t.drop i) && boundaryBeforeAt t i

/-! ## The extractor -/

def searchInv (t : List Char) : Option (List Char) := scanFirst matchInvAt t

def searchAmt (t : List Char) : Option (List Char) := scanFirst matchAmtAt t

def searchDue (t : List Char) : Option (List Char) := scanFirst matchDueAt t

/-- `re.search(r"\bPaid\b", text, re.IGNORECASE)` used in boolean position:
does any position of `t` (including the final empty one) start a match? -/
def searchPaid (t : List Char) : Bool :=
  (List.range (t.length + 1)).any (fun i => paidStandaloneAt t i)

/-- The dictionary built by `extract_invoice_data`. -/
structure InvoiceDetails where
  invoice_number : String
  amount : String
  due_date : String
  payment_status : String
deriving DecidableEq, Repr

/-- A missed pattern becomes the sentinel `"Unknown"`; a match is kept
verbatim. -/
def toField : Option (List Char) → String
  | some m => String.mk m
  | none => "Unknown"

/-- `extract_invoice_data` from the source: four independent regex searches
over the full text, each falling back to `"Unknown"` (or `"Unpaid"`). -/
def extract_invoice_data (text : List Char) : InvoiceDetails where
  invoice_number := toField (searchInv text)
  amount := toField (searchAmt text)
  due_date := toField (searchDue text)
  payment_status := if searchPaid text then "Paid" else "Unpaid"

/-! ## Records, MongoDB model, and `store_in_mongo` -/

/-- The per-message dictionary handed to `store_in_mongo`: the metadata from
`process_email` merged with the fields from `extract_invoice_data`. -/
structure InvoiceRecord where
  email_uid : String
  sender : String
  subject : String
  attachments : List String
  invoice_number : String
  amount : String
  due_date : String
  payment_status : String
deriving DecidableEq, Repr

/-- A MongoDB equality-filter document over the fields the source queries
by; `none` means the field is unconstrained. -/
structure Query where
  email_uid : Option String
  sender : Option String
  invoice_number : Option String
  amount : Option String
deriving DecidableEq, Repr

def matchField (qv : Option String) (rv : String) : Bool :=
  match qv with
  | none => true
  | some v => rv == v

def evalQuery (q : Query) (r : InvoiceRecord) : Bool :=
  matchField q.email_uid r.email_uid && matchField q.sender r.sender &&
    matchField q.invoice_number r.invoice_number && matchField q.amount r.amount

/-- `collection.find_one(query)`: first stored record matching the filter. -/
def find_one (coll : List InvoiceRecord) (q : Query) : Option InvoiceRecord :=
  coll.find? (evalQuery q)

/-- The first filter of `store_in_mongo`:
`{"email_uid": ..., "sender": ..., "invoice_number": ...}`. -/
def identityQuery (c : InvoiceRecord) : Query :=
  ⟨some c.email_uid, some c.sender, some c.invoice_number, none⟩

/-- The second filter of `store_in_mongo`: `{"sender": ..., "amount": ...}`. -/
def recurQuery (c : InvoiceRecord) : Query :=
  ⟨none, some c.sender, none, some c.amount⟩

/-- The two collections: `Invoices` (primary) and `RecurringInvoices`. -/
structure MongoState where
  collection : List InvoiceRecord
  recurring_collection : List InvoiceRecord
deriving DecidableEq, Repr

/-- `store_in_mongo` from the source, as a state transformer: skip on an
identity-key duplicate; insert into `RecurringInvoices` on a
`(sender, amount)` match with a resolved due date; else insert into
`Invoices`. -/
def store_in_mongo (s : MongoState) (c : InvoiceRecord) : MongoState :=
  if (find_one s.collection (identityQuery c)).isSome then s
  else if (find_one s.collection (recurQuery c)).isSome && c.due_date != "Unknown" then
    { s with recurring_collection := s.recurring_collection ++ [c] }
  else
    { s with collection := s.collection ++ [c] }

/-- The disposition decided by `store_in_mongo`'s branch structure. -/
inductive Disposition where
  | Duplicate
  | Recurring
  | New
deriving DecidableEq, Repr

/-- The decision component of `store_in_mongo`: the same two conditions, in
the same order, returning the outcome instead of performing the insert. -/
def classify (collection : List InvoiceRecord) (c : InvoiceRecord) : Disposition :=
  if (find_one collection (identityQuery c)).isSome then .Duplicate
  else if (find_one collection (recurQuery c)).isSome && c.due_date != "Unknown" then .Recurring
  else .New

/-- The identity key (duplicate comparison) as a relation on records. -/
def identityMatches (r c : InvoiceRecord) : Prop :=
  r.email_uid = c.email_uid ∧ r.sender = c.sender ∧ r.invoice_number = c.invoice_number

instance (r c : InvoiceRecord) : Decidable (identityMatches r c) := by
  unfold identityMatches; infer_instance

/-- The recurrence key `(sender, amount)` as a relation on records. -/
def recurMatches (r c : InvoiceRecord) : Prop :=
  r.sender = c.sender ∧ r.amount = c.amount

instance (r c : InvoiceRecord) : Decidable (recurMatches r c) := by
  unfold recurMatches; infer_instance

/-! ## Effect traces of `store_in_mongo` -/

/-- The MongoDB operations `store_in_mongo` can perform. -/
inductive MongoOp where
  | find_one_invoices : Query → MongoOp
  | insert_one_invoices : InvoiceRecord → MongoOp
  | insert_one_recurring : InvoiceRecord → MongoOp
deriving DecidableEq, Repr

def isLookupOp : MongoOp → Bool
  | .find_one_invoices _ => true
  | _ => false

def isInsertOp : MongoOp → Bool
  | .find_one_invoices _ => false
  | _ => true

/-- The effect of one operation on the database state (`find_one` reads
only). -/
def applyOp (s : MongoState) : MongoOp → MongoState
  | .find_one_invoices _ => s
  | .insert_one_invoices r => { s with collection := s.collection ++ [r] }
  | .insert_one_recurring r => { s with recurring_collection := s.recurring_collection ++ [r] }

/-- The exact sequence of collection operations `store_in_mongo` performs
against a primary collection with the given contents: the second lookup
runs only when the first found nothing (Python's `and` evaluates
`find_one` before the due-date test). -/
def store_in_mongo_trace (collection : List InvoiceRecord) (c : InvoiceRecord) : List MongoOp :=
  if (find_one collection (identityQuery c)).isSome then
    [.find_one_invoices (identityQuery c)]
  else if (find_one collection (recurQuery c)).isSome && c.due_date != "Unknown" then
    [.find_one_invoices (identityQuery c), .find_one_invoices (recurQuery c),
      .insert_one_recurring c]
  else
    [.find_one_invoices (identityQuery c), .find_one_invoices (recurQuery c),
      .insert_one_invoices c]

/-- The insertions the spec routes each disposition to: none for a
duplicate, the recurring store for `Recurring`, the primary store for
`New`. -/
def dispositionInserts : Disposition → InvoiceRecord → List MongoOp
  | .Duplicate, _ => []
  | .Recurring, c => [.insert_one_recurring c]
  | .New, c => [.insert_one_invoices c]

/-! ## Fallible lookups -/

/-- `store_in_mongo` with its two `find_one` calls routed through a lookup
capability that may fail (a raised `pymongo` error).  The source installs
no handler inside `store_in_mongo`, so a failure aborts the function
before any insert: an `error` result carries no disposition and no
insertions. -/
def classify_with_lookup (lookup : Query → Except String (Option InvoiceRecord))
    (c : InvoiceRecord) : Except String (Disposition × List MongoOp) :=
  match lookup (identityQuery c) with
  | .error e => .error e
  | .ok d =>
    if d.isSome then .ok (.Duplicate, [])
    else
      match lookup (recurQuery c) with
      | .error e => .error e
      | .ok m =>
        if m.isSome && c.due_date != "Unknown" then .ok (.Recurring, [.insert_one_recurring c])
        else .ok (.New, [.insert_one_invoices c])

/-- The always-successful lookup over a concrete primary collection. -/
def okLookup (collection : List InvoiceRecord) : Query → Except String (Option InvoiceRecord) :=
  fun q => .ok (find_one collection q)

/-! ## Spec-side definitions for the refinement comparison -/

/-- Modelled from the spec's words: the amount shape
`digits(,digits)*.dd` — an integer part of nonempty digit groups separated
by single commas, a dot, and exactly two fraction digits.  Used only to
compare the spec's description with the source's `[\d,]+\.\d{2}`. -/
def specIntPart : List Char → Bool
  | [] => false
  | [c] => c.isDigit
  | c :: c2 :: r =>
    c.isDigit && (if c2 == ',' then specIntPart r else specIntPart (c2 :: r))

/-- Modelled from the spec's words: a whole string of the claimed amount
shape `digits(,digits)*.dd`. -/
def specAmountShape (l : List Char) : Bool :=
  let intPart := l.takeWhile (fun c => !(c == '.'))
  match l.drop intPart.length with
  | '.' :: d1 :: d2 :: [] => specIntPart intPart && d1.isDigit && d2.isDigit
  | _ => false

/-! ## Sample records for witnesses -/

def sampleStored : InvoiceRecord :=
  ⟨"uid1", "acme@example.com", "Invoice", [], "INV123456", "150.00", "01/05/2025", "Unpaid"⟩

/-- Same sender and amount as `sampleStored`, different identity triple,
unresolved due date. -/
def sampleUnknownDue : InvoiceRecord :=
  ⟨"uid2", "acme@example.com", "Invoice", [], "INV222222", "150.00", "Unknown", "Unpaid"⟩

/-! ## Bridge lemmas between `find_one` filters and the spec's keys -/

theorem find_one_identity_isSome_iff (collection : List InvoiceRecord) (c : InvoiceRecord) :
    (find_one collection (identityQuery c)).isSome = true ↔
      ∃ r ∈ collection, identityMatches r c := by
  simp [find_one, List.find?_isSome, evalQuery, identityQuery, matchField, identityMatches,
    and_assoc]

theorem find_one_recur_isSome_iff (collection : List InvoiceRecord) (c : InvoiceRecord) :
    (find_one collection (recurQuery c)).isSome = true ↔
      ∃ r ∈ collection, recurMatches r c := by
  simp [find_one, List.find?_isSome, evalQuery, recurQuery, matchField, recurMatches]

/-! ## Claim theorems -/

/-- C1: the duplicate check takes strict precedence — whenever some record
of the primary collection matches the candidate's
`(message_id, sender, invoice_number)` triple exactly, classification
returns `Duplicate` (whatever the recurrence key or due date say). -/
theorem duplicate_precedence (collection : List InvoiceRecord) (c r : InvoiceRecord)
    (hr : r ∈ collection) (h1 : r.email_uid = c.email_uid) (h2 : r.sender = c.sender)
    (h3 : r.invoice_number = c.invoice_number) :
    classify collection c = .Duplicate := by
  have hs : (find_one collection (identityQuery c)).isSome = true :=
    (find_one_identity_isSome_iff collection c).mpr ⟨r, hr, h1, h2, h3⟩
  simp [classify, hs]

/-- Witness for C1: a store holding the candidate itself — which also
matches the `(sender, amount)` recurrence pair and has a resolved due
date — still classifies as `Duplicate`. -/
theorem duplicate_precedence_witness :
    classify [sampleStored] sampleStored = .Duplicate ∧
      recurMatches sampleStored sampleStored ∧ sampleStored.due_date ≠ "Unknown" :=
  ⟨duplicate_precedence [sampleStored] sampleStored sampleStored (by simp) rfl rfl rfl,
    ⟨rfl, rfl⟩, by decide⟩

/-- C7: `store_in_mongo` routes each record by its disposition — no
insertion at all on `Duplicate` (both collections unchanged), exactly one
insertion into the recurring collection on `Recurring`, and exactly one
insertion into the primary collection on `New`. -/
theorem store_routes_by_disposition (s : MongoState) (c : InvoiceRecord) :
    store_in_mongo s c =
      (match classify s.collection c with
      | .Duplicate => s
      | .Recurring => { s with recurring_collection := s.recurring_collection ++ [c] }
      | .New => { s with collection := s.collection ++ [c] }) := by
  by_cases h1 : (find_one s.collection (identityQuery c)).isSome = true
  · simp [store_in_mongo, classify, h1]
  · rw [Bool.not_eq_true] at h1
    by_cases h2 : ((find_one s.collection (recurQuery c)).isSome && c.due_date != "Unknown") = true
    · simp [store_in_mongo, classify, h1, h2]
    · rw [Bool.not_eq_true] at h2
      simp [store_in_mongo, classify, h1, h2]

/-- C9: a failing lookup propagates out of classification as the failure
itself — if the first `find_one` fails, or the first succeeds with no
match and the second fails, the result is that error, never a
disposition, and no insertion is produced. -/
theorem lookup_failure_propagates (lookup : Query → Except String (Option InvoiceRecord))
    (c : InvoiceRecord) (e : String) :
    (lookup (identityQuery c) = .error e → classify_with_lookup lookup c = .error e) ∧
    (lookup (identityQuery c) = .ok none → lookup (recurQuery c) = .error e →
      classify_with_lookup lookup c = .error e) := by
  constructor
  · intro h
    simp [classify_with_lookup, h]
  · intro h1 h2
    simp [classify_with_lookup, h1, h2]

/-- Witness for C9: an unreachable collection makes classification return
the error unchanged. -/
theorem lookup_failure_witness :
    classify_with_lookup (fun _ => .error "server selection timeout") sampleStored =
      .error "server selection timeout" :=
  (lookup_failure_propagates (fun _ => .error "server selection timeout") sampleStored
    "server selection timeout").1 rfl

/-- C4: the two end-to-end extraction examples — the base text yields the
stated four fields with `Unpaid`, and the text extended with
`"Status: Paid"` yields the same fields with `Paid`. -/
theorem extract_examples :
    extract_invoice_data ("Invoice ABC123456 Due Date: 01/05/2025 Total €150.00").data =
      ⟨"ABC123456", "150.00", "01/05/2025", "Unpaid"⟩ ∧
    extract_invoice_data ("Invoice ABC123456 Due Date: 01/05/2025 Total €150.00 Status: Paid").data =
      ⟨"ABC123456", "150.00", "01/05/2025", "Paid"⟩ := by
  constructor <;> decide

/-- C10: invoice-number matching is not anchored at token boundaries — on
`"ABCDEF123456"` the extractor returns the proper substring
`"BCDEF123456"`, not `Unknown` and not the whole token. -/
theorem invoice_number_not_anchored :
    (extract_invoice_data ("ABCDEF123456").data).invoice_number = "BCDEF123456" ∧
    ("BCDEF123456" : String) ≠ "ABCDEF123456" ∧ ("BCDEF123456" : String) ≠ "Unknown" := by
  decide

/-- C6 (counterexample): on `"€,5.00"` the extractor stores `",5.00"`,
which is neither of the claimed shape `digits(,digits)*.dd` nor the
sentinel `Unknown` — the source's `[\d,]+` accepts comma runs the claim's
shape excludes. -/
theorem amount_shape_counterexample :
    (extract_invoice_data ("€,5.00").data).amount = ",5.00" ∧
    specAmountShape (",5.00").data = false ∧ ((",5.00" : String) ≠ "Unknown") := by
  decide

/-! ## Leftmost-search characterization of `scanFirst` -/

theorem scanFirst_eq_none_iff (f : List Char → Option (List Char)) (t : List Char) :
    scanFirst f t = none ↔ ∀ i, f (t.drop i) = none := by
  induction t with
  | nil =>
    constructor
    · intro h i
      simpa [scanFirst] using h
    · intro h
      simpa [scanFirst] using h 0
  | cons c r ih =>
    have hstep : scanFirst f (c :: r) = none ↔ f (c :: r) = none ∧ scanFirst f r = none := by
      cases hf : f (c :: r) <;> simp [scanFirst, hf]
    rw [hstep, ih]
    constructor
    · rintro ⟨h0, hr⟩ i
      cases i with
      | zero => simpa using h0
      | succ j => simpa using hr j
    · intro h
      exact ⟨h 0, fun j => by simpa using h (j + 1)⟩

theorem scanFirst_eq_some_iff (f : List Char → Option (List Char)) (t m : List Char) :
    scanFirst f t = some m ↔
      ∃ i, f (t.drop i) = some m ∧ ∀ j < i, f (t.drop j) = none := by
  induction t with
  | nil =>
    constructor
    · intro h
      exact ⟨0, by simpa [scanFirst] using h, fun j hj => absurd hj (Nat.not_lt_zero j)⟩
    · rintro ⟨i, hi, _⟩
      simpa [scanFirst] using hi
  | cons c r ih =>
    cases hf : f (c :: r) with
    | some m2 =>
      have hL : scanFirst f (c :: r) = some m2 := by simp [scanFirst, hf]
      rw [hL]
      constructor
      · intro h
        exact ⟨0, by simpa [hf] using h, fun j hj => absurd hj (Nat.not_lt_zero j)⟩
      · rintro ⟨i, hi, hmin⟩
        cases i with
        | zero =>
          rw [List.drop_zero, hf] at hi
          exact hi
        | succ j =>
          have h0 := hmin 0 (Nat.succ_pos j)
          rw [List.drop_zero, hf] at h0
          exact absurd h0 (by simp)
    | none =>
      have hL : scanFirst f (c :: r) = scanFirst f r := by simp [scanFirst, hf]
      rw [hL, ih]
      constructor
      · rintro ⟨i, hi, hmin⟩
        refine ⟨i + 1, by simpa using hi, fun j hj => ?_⟩
        cases j with
        | zero => simpa using hf
        | succ j2 => simpa using hmin j2 (by omega)
      · rintro ⟨i, hi, hmin⟩
        cases i with
        | zero =>
          rw [List.drop_zero, hf] at hi
          exact absurd hi (by simp)
        | succ j =>
          exact ⟨j, by simpa using hi, fun j2 hj2 => by simpa using hmin (j2 + 1) (by omega)⟩

/-- C6 (amended): the extracted amount is determined by the leftmost match
of the source pattern `€\s?([\d,]+\.\d{2})` — either no position of the
text starts a match and the amount is `Unknown`, or some first position
does and the amount is that match's group, kept verbatim. -/
theorem amount_first_match (t : List Char) :
    ((∀ i, matchAmtAt (t.drop i) = none) ∧ (extract_invoice_data t).amount = "Unknown") ∨
    (∃ i m, matchAmtAt (t.drop i) = some m ∧ (∀ j < i, matchAmtAt (t.drop j) = none) ∧
      (extract_invoice_data t).amount = String.mk m) := by
  cases hs : searchAmt t with
  | none =>
    left
    exact ⟨(scanFirst_eq_none_iff matchAmtAt t).mp hs,
      by simp [extract_invoice_data, toField, hs]⟩
  | some m =>
    right
    obtain ⟨i, hi, hmin⟩ := (scanFirst_eq_some_iff matchAmtAt t m).mp hs
    exact ⟨i, m, hi, hmin, by simp [extract_invoice_data, toField, hs]⟩

/-- C5: the payment status is `Paid` exactly when some position of the text
starts a standalone, word-boundary-delimited, case-insensitive `Paid`;
otherwise (in particular when `Paid` only occurs embedded in a longer
word) it is `Unpaid`. -/
theorem paid_iff_standalone (t : List Char) :
    (extract_invoice_data t).payment_status = "Paid" ↔
      ∃ i, paidStandaloneAt t i = true := by
  have hval : (extract_invoice_data t).payment_status =
      (if searchPaid t then "Paid" else "Unpaid") := rfl
  have hiff : (extract_invoice_data t).payment_status = "Paid" ↔ searchPaid t = true := by
    rw [hval]
    cases searchPaid t with
    | true => simp
    | false => simp
  rw [hiff]
  constructor
  · intro hs
    rw [searchPaid, List.any_eq_true] at hs
    obtain ⟨i, _, hp⟩ := hs
    exact ⟨i, hp⟩
  · rintro ⟨i, hp⟩
    rw [searchPaid, List.any_eq_true]
    have hi : i < t.length + 1 := by
      by_contra hge
      have hdrop : t.drop i = [] := List.drop_eq_nil_of_le (by omega)
      rw [paidStandaloneAt, hdrop] at hp
      exact absurd hp (by simp [matchPaidAt])
    exact ⟨i, List.mem_range.mpr hi, hp⟩

/-- C2: the recurring rule requires a resolved due date — with no
identity-triple match and `due_date = "Unknown"` the candidate is `New`
and is inserted into the primary collection; and `Recurring` holds exactly
when there is no identity match, a `(sender, amount)` match exists, and
the due date is resolved. -/
theorem recurring_requires_due_date (s : MongoState) (c : InvoiceRecord) :
    (c.due_date = "Unknown" → (¬∃ r ∈ s.collection, identityMatches r c) →
      classify s.collection c = .New ∧
        store_in_mongo s c = { s with collection := s.collection ++ [c] }) ∧
    (classify s.collection c = .Recurring ↔
      (¬∃ r ∈ s.collection, identityMatches r c) ∧
        (∃ r ∈ s.collection, recurMatches r c) ∧ c.due_date ≠ "Unknown") := by
  constructor
  · intro hdue hno
    have h1 : (find_one s.collection (identityQuery c)).isSome = false := by
      rw [← Bool.not_eq_true, find_one_identity_isSome_iff]
      exact hno
    have h2 : (c.due_date != "Unknown") = false := by simp [hdue]
    exact ⟨by simp [classify, h1, h2], by simp [store_in_mongo, h1, h2]⟩
  · constructor
    · intro hrec
      by_cases h1 : (find_one s.collection (identityQuery c)).isSome = true
      · rw [classify, if_pos h1] at hrec
        exact absurd hrec (by decide)
      · rw [Bool.not_eq_true] at h1
        rw [classify, if_neg (by simp [h1])] at hrec
        by_cases h2 : ((find_one s.collection (recurQuery c)).isSome &&
            c.due_date != "Unknown") = true
        · rw [Bool.and_eq_true] at h2
          obtain ⟨h2a, h2b⟩ := h2
          refine ⟨?_, (find_one_recur_isSome_iff _ _).mp h2a, bne_iff_ne.mp h2b⟩
          intro hex
          have hs := (find_one_identity_isSome_iff s.collection c).mpr hex
          rw [h1] at hs
          exact absurd hs (by simp)
        · rw [Bool.not_eq_true] at h2
          rw [if_neg (by simp [h2])] at hrec
          exact absurd hrec (by decide)
    · rintro ⟨hno, hrec, hdue⟩
      have h1 : (find_one s.collection (identityQuery c)).isSome = false := by
        rw [← Bool.not_eq_true, find_one_identity_isSome_iff]
        exact hno
      have h2a : (find_one s.collection (recurQuery c)).isSome = true :=
        (find_one_recur_isSome_iff _ _).mpr hrec
      have h2b : (c.due_date != "Unknown") = true := bne_iff_ne.mpr hdue
      simp [classify, h1, h2a, h2b]

/-- Witness for C2: the store holds a `(sender, amount)` match but no
identity match, the candidate's due date is the sentinel — the candidate
classifies as `New` and lands in the primary collection. -/
theorem recurring_requires_due_witness :
    classify [sampleStored] sampleUnknownDue = .New ∧
      store_in_mongo ⟨[sampleStored], []⟩ sampleUnknownDue =
        ⟨[sampleStored] ++ [sampleUnknownDue], []⟩ :=
  (recurring_requires_due_date ⟨[sampleStored], []⟩ sampleUnknownDue).1 rfl (by decide)

/-! ## Whitespace-only inputs defeat every matcher -/

theorem space_cases {c : Char} (h : isSpacePy c = true) :
    c = ' ' ∨ c = '\t' ∨ c = '\n' ∨ c = '\r' ∨ c = '\x0b' ∨ c = '\x0c' := by
  simpa [isSpacePy, or_assoc] using h

theorem matchInvAt_whitespace (l : List Char) (h : ∀ c ∈ l, isSpacePy c = true) :
    matchInvAt l = none := by
  cases l with
  | nil => rfl
  | cons c r =>
    rcases space_cases (h c (List.mem_cons_self c r)) with h' | h' | h' | h' | h' | h' <;>
      subst h' <;> rfl

theorem matchAmtAt_whitespace (l : List Char) (h : ∀ c ∈ l, isSpacePy c = true) :
    matchAmtAt l = none := by
  cases l with
  | nil => rfl
  | cons c r =>
    rcases space_cases (h c (List.mem_cons_self c r)) with h' | h' | h' | h' | h' | h' <;>
      subst h' <;> rfl

theorem matchDueAt_whitespace (l : List Char) (h : ∀ c ∈ l, isSpacePy c = true) :
    matchDueAt l = none := by
  cases l with
  | nil => rfl
  | cons c r =>
    rcases space_cases (h c (List.mem_cons_self c r)) with h' | h' | h' | h' | h' | h' <;>
      subst h' <;> rfl

theorem matchPaidAt_whitespace (l : List Char) (h : ∀ c ∈ l, isSpacePy c = true) :
    matchPaidAt l = false := by
  cases l with
  | nil => rfl
  | cons p l1 =>
    cases l1 with
    | nil => rfl
    | cons a l2 =>
      cases l2 with
      | nil => rfl
      | cons i l3 =>
        cases l3 with
        | nil => rfl
        | cons d rest =>
          rcases space_cases (h p (List.mem_cons_self _ _)) with h' | h' | h' | h' | h' | h' <;>
            subst h' <;> rfl

theorem isSpacePy_of_mem_drop {t : List Char} (h : ∀ c ∈ t, isSpacePy c = true) (i : Nat) :
    ∀ c ∈ t.drop i, isSpacePy c = true :=
  fun c hc => h c (List.drop_subset i t hc)

/-- C3: extraction is total and defaults to the sentinels — each missed
pattern yields `"Unknown"` (or `"Unpaid"` for the status), and on
whitespace-only text (the empty text included) all four fields are the
defaults.  Totality itself is structural: `extract_invoice_data` is a
total function into a structure carrying all four fields. -/
theorem extract_total (t : List Char) :
    (searchInv t = none → (extract_invoice_data t).invoice_number = "Unknown") ∧
    (searchAmt t = none → (extract_invoice_data t).amount = "Unknown") ∧
    (searchDue t = none → (extract_invoice_data t).due_date = "Unknown") ∧
    (searchPaid t = false → (extract_invoice_data t).payment_status = "Unpaid") ∧
    ((∀ c ∈ t, isSpacePy c = true) →
      extract_invoice_data t = ⟨"Unknown", "Unknown", "Unknown", "Unpaid"⟩) := by
  refine ⟨fun h => by simp [extract_invoice_data, toField, h],
    fun h => by simp [extract_invoice_data, toField, h],
    fun h => by simp [extract_invoice_data, toField, h],
    fun h => by simp [extract_invoice_data, h],
    fun hws => ?_⟩
  have h1 : searchInv t = none :=
    (scanFirst_eq_none_iff matchInvAt t).mpr
      fun i => matchInvAt_whitespace _ (isSpacePy_of_mem_drop hws i)
  have h2 : searchAmt t = none :=
    (scanFirst_eq_none_iff matchAmtAt t).mpr
      fun i => matchAmtAt_whitespace _ (isSpacePy_of_mem_drop hws i)
  have h3 : searchDue t = none :=
    (scanFirst_eq_none_iff matchDueAt t).mpr
      fun i => matchDueAt_whitespace _ (isSpacePy_of_mem_drop hws i)
  have h4 : searchPaid t = false := by
    rw [searchPaid, List.any_eq_false]
    intro i _
    rw [paidStandaloneAt]
    simp [matchPaidAt_whitespace _ (isSpacePy_of_mem_drop hws i)]
  simp [extract_invoice_data, toField, h1, h2, h3, h4]

/-- Witness for C3: the empty text and a whitespace-only text both yield
the all-sentinel, `Unpaid` field set. -/
theorem extract_total_witness :
    extract_invoice_data ("").data = ⟨"Unknown", "Unknown", "Unknown", "Unpaid"⟩ ∧
    extract_invoice_data (" \t ").data = ⟨"Unknown", "Unknown", "Unknown", "Unpaid"⟩ :=
  ⟨(extract_total ("").data).2.2.2.2 (by decide),
    (extract_total (" \t ").data).2.2.2.2 (by decide)⟩

/-- C8: the storage dispatch decomposes into a pure decision plus
caller-side insertion — its operation trace is one or two `find_one`
lookups (which leave the state untouched) followed exactly by the
insertions the disposition routes to, and replaying the whole trace is
`store_in_mongo`. -/
theorem classification_lookup_discipline (s : MongoState) (c : InvoiceRecord) :
    ∃ looks ins,
      store_in_mongo_trace s.collection c = looks ++ ins ∧
      looks.all isLookupOp = true ∧ ins.all isInsertOp = true ∧
      (looks.length = 1 ∨ looks.length = 2) ∧
      (∀ s2 : MongoState, looks.foldl applyOp s2 = s2) ∧
      ins = dispositionInserts (classify s.collection c) c ∧
      (store_in_mongo_trace s.collection c).foldl applyOp s = store_in_mongo s c := by
  by_cases h1 : (find_one s.collection (identityQuery c)).isSome = true
  · refine ⟨[.find_one_invoices (identityQuery c)], [], ?_, rfl, rfl, Or.inl rfl,
      fun s2 => rfl, ?_, ?_⟩
    · simp [store_in_mongo_trace, h1]
    · simp [classify, h1, dispositionInserts]
    · simp [store_in_mongo_trace, store_in_mongo, h1, applyOp]
  · rw [Bool.not_eq_true] at h1
    by_cases h2 : ((find_one s.collection (recurQuery c)).isSome &&
        c.due_date != "Unknown") = true
    · refine ⟨[.find_one_invoices (identityQuery c), .find_one_invoices (recurQuery c)],
        [.insert_one_recurring c], ?_, rfl, rfl, Or.inr rfl, fun s2 => rfl, ?_, ?_⟩
      · simp [store_in_mongo_trace, h1, h2]
      · simp [classify, h1, h2, dispositionInserts]
      · simp [store_in_mongo_trace, store_in_mongo, h1, h2, applyOp]
    · rw [Bool.not_eq_true] at h2
      refine ⟨[.find_one_invoices (identityQuery c), .find_one_invoices (recurQuery c)],
        [.insert_one_invoices c], ?_, rfl, rfl, Or.inr rfl, fun s2 => rfl, ?_, ?_⟩
      · simp [store_in_mongo_trace, h1, h2]
      · simp [classify, h1, h2, dispositionInserts]
      · simp [store_in_mongo_trace, store_in_mongo, h1, h2, applyOp]

end InvoiceExtractor
